import Mathlib

/-!
Verification of the episode-downloader candidate-selection logic.

The source is JavaScript/TypeScript; it is shallowly embedded here:
strings are `List Char`, JS numbers arising in the scoring code are
modelled as exact rationals `ℚ`, fallible code returns `Option`/`Except`.
-/

/-- JS strings are modelled as lists of characters. -/
abbrev Str := List Char

/-- Membership of a (lower-cased) character in the class `[a-z0-9]`,
the complement of the `[^a-z0-9]` class used in `nameSimilarity`. -/
def isAlnumLower (c : Char) : Bool :=
  ('a' ≤ c && c ≤ 'z') || ('0' ≤ c && c ≤ '9')

/-- Embedding of `s.replace(/[^a-z0-9]+/g, ' ')`: every maximal run of
characters outside `[a-z0-9]` becomes a single space.  The boolean flag
records whether we are currently inside such a run. -/
def collapseRuns : List Char → Bool → List Char
  | [], _ => []
  | c :: rest, inRun =>
    if isAlnumLower c then c :: collapseRuns rest false
    else if inRun then collapseRuns rest true
    else ' ' :: collapseRuns rest true

/-- Embedding of JS `String.prototype.split(' ')` on a character list. -/
def splitOnSpace : List Char → List (List Char)
  | [] => [[]]
  | c :: rest =>
    if c = ' ' then [] :: splitOnSpace rest
    else
      match splitOnSpace rest with
      | [] => [[c]]
      | t :: ts => (c :: t) :: ts

/-- Embedding of the `clean` helper inside `nameSimilarity`:
`s.toLowerCase().replace(/[^a-z0-9]+/g, ' ').split(' ').filter(Boolean)`.
`filter(Boolean)` drops exactly the empty tokens. -/
def clean (s : Str) : List Str :=
  (splitOnSpace (collapseRuns (s.map Char.toLower) false)).filter (fun t => !t.isEmpty)

/-- Embedding of `nameSimilarity(a, b)` from `episode_downloader.js`:
build the two token sets (a JS `Set` of the cleaned words), count the
words of `a` that also occur in `b`, and divide by
`Math.max(aWords.size, bWords.size, 1)`.  A JS `Set` built from a list
has the list's distinct elements, modelled by `List.dedup`. -/
def nameSimilarity (a b : Str) : ℚ :=
  (((clean a).dedup.filter (fun w => decide (w ∈ (clean b).dedup))).length : ℚ) /
    ((max (max (clean a).dedup.length (clean b).dedup.length) 1 : ℕ) : ℚ)

/-- Reference definition of `wordSimilarity` following the spec's words
(§4.3): lower-case, replace every run of non-alphanumerics by one space,
split on spaces, drop empty tokens, form the two *sets* of tokens, and
return `|A ∩ B| / max(|A|, |B|, 1)`. -/
def wordSimilarityRef (a b : Str) : ℚ :=
  (((clean a).toFinset ∩ (clean b).toFinset).card : ℚ) /
    ((max (max (clean a).toFinset.card (clean b).toFinset.card) 1 : ℕ) : ℚ)

/-- The `seeders` field of an apibay result: `string | number` in the
TypeScript `Torrent` interface. -/
inductive SeedVal
  | num (n : Int)
  | str (s : Str)
deriving DecidableEq

/-- Embedding of the `Torrent` interface from `torrent-utils`
(`{ name: string; seeders?: string | number; info_hash: string }`). -/
structure Torrent where
  name : Str
  seeders : Option SeedVal
  info_hash : Str
deriving DecidableEq

/-- Embedding of a subtitle candidate from `subtitles-utils`
(`{ fileId, fileName?: string, release }`); `fileName` may be absent. -/
structure Subtitle where
  fileId : Nat
  fileName : Option Str
  release : Option Str
deriving DecidableEq

/-- JS truthiness of a string: exactly the empty string is falsy. -/
def truthyStr (s : Str) : Bool := !s.isEmpty

/-- JS truthiness of a possibly-absent string: `undefined` and `""` are
falsy. -/
def truthyOptStr (o : Option Str) : Bool :=
  match o with
  | none => false
  | some s => !s.isEmpty

/-- The file name a subtitle contributes to the similarity computation
(only ever used after a truthiness check). -/
def subName (s : Subtitle) : Str := s.fileName.getD []

/-- The matcher's loop state: `bestPair` together with `bestScore`. -/
structure MatchState where
  video : Torrent
  subtitle : Subtitle
  score : ℚ
deriving DecidableEq

/-- One inner-loop iteration of `handleVideoAndSubtitleMatching`:
`if (!torrent.name || !subtitle.fileName) continue;` then update the best
pair when the pair's similarity is strictly greater than `bestScore`. -/
def matchStepSub (t : Torrent) (st : MatchState) (s : Subtitle) : MatchState :=
  if !truthyStr t.name || !truthyOptStr s.fileName then st
  else if st.score < nameSimilarity t.name (subName s) then
    ⟨t, s, nameSimilarity t.name (subName s)⟩
  else st

/-- Embedding of the matching block of `handleVideoAndSubtitleMatching`:
`bestScore` starts at `-1`, `bestPair` at `(torrents[0], subtitles[0])`,
followed by the nested loops over all pairs.  When either list is empty
the JS code dereferences the `undefined` member of `bestPair` and throws;
that failure is modelled as `none`. -/
def matchBest (tors : List Torrent) (subs : List Subtitle) : Option MatchState :=
  match tors, subs with
  | t0 :: _, s0 :: _ =>
    some (tors.foldl (fun st t => subs.foldl (matchStepSub t) st) ⟨t0, s0, -1⟩)
  | _, _ => none

/-- ASCII whitespace, for JS `parseInt`'s leading trim and `trim()`. -/
def isWs (c : Char) : Bool := c = ' ' || c = '\t' || c = '\n' || c = '\r'

/-- Numeric value of a string of decimal digits. -/
def digitsVal (l : Str) : Nat := l.foldl (fun a c => a * 10 + (c.toNat - 48)) 0

/-- Parse the maximal run of leading digits; `none` models `NaN`. -/
def parseDigits (s : Str) : Option Nat :=
  if (s.takeWhile Char.isDigit).isEmpty then none
  else some (digitsVal (s.takeWhile Char.isDigit))

/-- Embedding of JS `parseInt` on a string (base 10): skip leading
whitespace, take an optional sign and the maximal run of leading digits;
if no digit follows, the result is `NaN`, modelled as `none`. -/
def parseIntJS (s : Str) : Option Int :=
  match s.dropWhile isWs with
  | '-' :: rest => (parseDigits rest).map (fun n => -(n : Int))
  | '+' :: rest => (parseDigits rest).map (fun n => (n : Int))
  | t => (parseDigits t).map (fun n => (n : Int))

/-- JS `String(x)` applied to a seeders value. -/
def seedToString : SeedVal → Str
  | .num n => (toString n).toList
  | .str s => s

/-- JS truthiness of a seeders value: `0` and `""` are falsy. -/
def truthySeed : SeedVal → Bool
  | .num n => n != 0
  | .str s => !s.isEmpty

/-- Truthiness of `torrent.seeders` (an absent field is falsy). -/
def seedersTruthy (t : Torrent) : Bool :=
  match t.seeders with
  | none => false
  | some v => truthySeed v

/-- `parseInt(String(t.seeders))` when `seeders` is present; `none`
models both an absent field and a `NaN` parse. -/
def parsedSeeders (t : Torrent) : Option Int :=
  match t.seeders with
  | none => none
  | some v => parseIntJS (seedToString v)

/-- The seeder count as the spec reads it (§3): absent or unparseable
seeders are treated as `0`.  Used to state the claims about the seeder
filter and threshold. -/
def seedCount (t : Torrent) : Int := (parsedSeeders t).getD 0

/-- Case-insensitive substring test, embedding `/pat/i.test(s)` for a
lower-case literal pattern. -/
def containsCI (s : Str) (pat : Str) : Bool :=
  (s.map Char.toLower).tails.any (fun t => pat.isPrefixOf t)

/-- The quality tier of `scoreTorrent`: 3 for `1080p`, else 2 for
`720p`, else 1 for `480p`, else 0 — first match wins. -/
def qualityTier (name : Str) : ℕ :=
  if containsCI name "1080p".toList then 3
  else if containsCI name "720p".toList then 2
  else if containsCI name "480p".toList then 1
  else 0

/-- `parseInt(torrent.seeders ? String(torrent.seeders) : '0')`: falsy
seeders parse as `0`; truthy but unparseable seeders yield `NaN`. -/
def seedNumber (t : Torrent) : Option Int :=
  if seedersTruthy t then parsedSeeders t else some 0

/-- Embedding of `scoreTorrent` from `torrent-utils`:
`qualityScore * 1000 + parseInt(...) / 1000`; a `NaN` seeders parse
poisons the whole score, hence the `Option`. -/
def scoreTorrent (t : Torrent) : Option ℚ :=
  (seedNumber t).map
    (fun (n : Int) => (qualityTier t.name : ℚ) * 1000 + (n : ℚ) / 1000)

/-- A scored torrent, `{ ...t, score: scoreTorrent(t) }`. -/
structure Scored where
  torrent : Torrent
  score : ℚ
deriving DecidableEq

/-- The descending-score order realised by
`scored.sort((a, b) => b.score - a.score)`. -/
def scoreGE (a b : Scored) : Prop := b.score ≤ a.score

instance : DecidableRel scoreGE :=
  fun a b => inferInstanceAs (Decidable (b.score ≤ a.score))

instance : IsTotal Scored scoreGE := ⟨fun a b => le_total b.score a.score⟩

instance : IsTrans Scored scoreGE := ⟨fun _ _ _ h1 h2 => le_trans h2 h1⟩

/-- The two failures of `findMagnets`: an empty result set
(`'No torrents found for this episode.'`) and an empty post-filter set
(`'No torrents found with enough seeders.'`). -/
inductive FindError
  | notFound
  | notEnoughSeeders
deriving DecidableEq

/-- Embedding of the seeder filter of `findMagnets`:
`t.seeders && parseInt(String(t.seeders)) >= (minSeeds || 0)`.  Note the
leading truthiness test, and that a `NaN` parse always fails the `>=`.
`minSeeds || 0` is the identity on the integers. -/
def passesSeedFilter (minSeeds : Int) (t : Torrent) : Bool :=
  seedersTruthy t &&
    match parsedSeeders t with
    | some v => decide (minSeeds ≤ v)
    | none => false

/-- The filter as the claim describes it: keep a candidate exactly when
its seeder count (absent/unparseable read as 0) meets the threshold. -/
def specRetained (minSeeds : Int) (t : Torrent) : Bool :=
  decide (minSeeds ≤ seedCount t)

/-- Embedding of `findMagnets` from `torrent-utils`, with the network
call abstracted to its decoded result list: `notFound` on an empty
result set, then the seeder filter, `notEnoughSeeders` if nothing
passes, otherwise score and sort descending (the stable JS comparator
sort is modelled by insertion sort under `scoreGE`).  Every torrent that
passes the filter has a parseable seeders field, so its `scoreTorrent`
is defined and the `getD 0` only unwraps it. -/
def findMagnets (results : List Torrent) (minSeeds : Int) :
    Except FindError (List Scored) :=
  if results.isEmpty then .error .notFound
  else
    if (results.filter (passesSeedFilter minSeeds)).isEmpty then
      .error .notEnoughSeeders
    else
      .ok (List.insertionSort scoreGE
        ((results.filter (passesSeedFilter minSeeds)).map
          (fun t => ⟨t, (scoreTorrent t).getD 0⟩)))

/-- Concrete torrent with a 1080p name and 0 seeders. -/
def cexT1080 : Torrent :=
  ⟨"Show S01E01 1080p WEB".toList, some (.str "0".toList), "h2".toList⟩

/-- Concrete torrent whose name has both "1080p" and "720p", with 999
seeders. -/
def cexBoth : Torrent :=
  ⟨"Show S01E01 1080p 720p".toList, some (.str "999".toList), "h3".toList⟩

/-- Concrete 1080p torrent with 30 seeders. -/
def wT1080 : Torrent :=
  ⟨"Show.S01E01.1080p.WEB".toList, some (.str "30".toList), "h4".toList⟩

/-- Concrete 720p-only torrent with 500 seeders. -/
def wT720 : Torrent :=
  ⟨"Show.S01E01.720p.WEB".toList, some (.str "500".toList), "h5".toList⟩

/-- Concrete 480p torrent with 25 seeders. -/
def wT480 : Torrent :=
  ⟨"Show 480p".toList, some (.str "25".toList), "h6".toList⟩

/-- Concrete torrent with only 5 seeders. -/
def wLowSeed : Torrent :=
  ⟨"Show 1080p".toList, some (.str "5".toList), "h7".toList⟩

/-- Concrete torrent whose seeders field is absent. -/
def cexAbsentSeeders : Torrent := ⟨"Show 1080p".toList, none, "h8".toList⟩

/-- Concrete torrent used to exercise the matcher on inputs with no
scored pair. -/
def cexTorrent : Torrent := ⟨"Show S01E01 1080p".toList, none, "hash".toList⟩

/-- Concrete subtitle candidate lacking a `fileName`. -/
def cexNoNameSub : Subtitle := ⟨7, none, some "Show.S01E01".toList⟩

/-- Concrete torrent with a name sharing no token with `wSub`. -/
def wTor : Torrent := ⟨"abc".toList, none, "h1".toList⟩

/-- Concrete subtitle whose file name shares no token with `wTor`. -/
def wSub : Subtitle := ⟨1, some "xyz".toList, none⟩

/-- Concrete subtitle with a file name, for the C7 witness. -/
def wSub2 : Subtitle := ⟨2, some "def".toList, none⟩

/-- Rendering of a natural number, the JS template `${n}`. -/
def natToStr (n : Nat) : Str := (toString n).toList

/-- JS `String.prototype.trim()`, restricted to ASCII whitespace. -/
def jsTrim (s : Str) : Str :=
  (((s.dropWhile isWs).reverse).dropWhile isWs).reverse

/-- JS `Math.round` on an exact rational: round half toward positive
infinity. -/
def jsRound (x : ℚ) : Int := ⌊x + 1 / 2⌋

/-- The string `formatDuration` assembles from its four components:
days, hours and minutes are emitted only when non-zero (JS numeric
truthiness of the `if (days)` tests), seconds always, then `trim()`. -/
def renderDuration (days hours minutes secs : ℕ) : Str :=
  jsTrim ((if days ≠ 0 then natToStr days ++ ['d', ' '] else []) ++
    (if hours ≠ 0 then natToStr hours ++ ['h', ' '] else []) ++
    (if minutes ≠ 0 then natToStr minutes ++ ['m', ' '] else []) ++
    natToStr secs ++ ['s'])

/-- Embedding of `formatDuration` from `time-utils.ts`:
`seconds = Math.max(0, Math.round(Number(seconds)))`, then successive
division and remainder split off days, hours, minutes and seconds. -/
def formatDuration (seconds : ℚ) : Str :=
  renderDuration ((max 0 (jsRound seconds)).toNat / 86400)
    ((max 0 (jsRound seconds)).toNat % 86400 / 3600)
    ((max 0 (jsRound seconds)).toNat % 86400 % 3600 / 60)
    ((max 0 (jsRound seconds)).toNat % 86400 % 3600 % 60)

theorem dedup_filter_length_eq (A B : List Str) :
    (A.dedup.filter (fun w => decide (w ∈ B.dedup))).length =
      (A.toFinset ∩ B.toFinset).card := by
  have hnd : (A.dedup.filter (fun w => decide (w ∈ B.dedup))).Nodup :=
    A.nodup_dedup.filter _
  rw [← List.toFinset_card_of_nodup hnd]
  congr 1
  ext x
  simp [List.mem_filter, List.mem_dedup]

theorem nameSimilarity_eq_finset (a b : Str) :
    nameSimilarity a b =
      (((clean a).toFinset ∩ (clean b).toFinset).card : ℚ) /
        ((max (max (clean a).toFinset.card (clean b).toFinset.card) 1 : ℕ) : ℚ) := by
  unfold nameSimilarity
  simp only [List.card_toFinset, dedup_filter_length_eq]

theorem collapseRuns_sep_inRun (l : List Char) (h : ∀ c ∈ l, isAlnumLower c = false) :
    collapseRuns l true = [] := by
  induction l with
  | nil => rfl
  | cons c rest ih =>
    simp only [collapseRuns, h c (List.mem_cons_self c rest), Bool.false_eq_true,
      if_false, if_true]
    exact ih (fun d hd => h d (List.mem_cons_of_mem c hd))

theorem collapseRuns_sep_start (l : List Char) (h : ∀ c ∈ l, isAlnumLower c = false) :
    collapseRuns l false = [] ∨ collapseRuns l false = [' '] := by
  cases l with
  | nil => exact Or.inl rfl
  | cons c rest =>
    right
    simp only [collapseRuns, h c (List.mem_cons_self c rest), Bool.false_eq_true,
      if_false]
    rw [collapseRuns_sep_inRun rest (fun d hd => h d (List.mem_cons_of_mem c hd))]

theorem clean_eq_nil_of_no_alnum (s : Str)
    (h : ∀ c ∈ s, isAlnumLower (Char.toLower c) = false) : clean s = [] := by
  have h2 : ∀ c ∈ s.map Char.toLower, isAlnumLower c = false := by
    intro c hc
    rcases List.mem_map.mp hc with ⟨d, hd, rfl⟩
    exact h d hd
  unfold clean
  rcases collapseRuns_sep_start _ h2 with h3 | h3 <;> rw [h3] <;> rfl

/-- C1: for all strings `a`, `b`, the matcher's word-similarity function
`nameSimilarity` returns exactly the value of the reference definition:
lower-case both strings, collapse every maximal run of non-alphanumeric
characters to a single space, split on spaces, drop empty tokens, form the
two sets of tokens, and return `|A ∩ B| / max(|A|, |B|, 1)` — the
denominator being the larger set size clamped to at least 1, not the size
of the union. -/
theorem nameSimilarity_matches_reference (a b : Str) :
    nameSimilarity a b = wordSimilarityRef a b := by
  rw [nameSimilarity_eq_finset]; rfl

/-- C9: `nameSimilarity` is symmetric, always lands in `[0, 1]`, and is
total: the denominator `max(|A|, |B|, 1)` is never zero, so an input that
is empty or has no alphanumeric characters yields `0`, not a division by
zero. -/
theorem nameSimilarity_symm_bounds (a b : Str) :
    nameSimilarity a b = nameSimilarity b a ∧
    0 ≤ nameSimilarity a b ∧ nameSimilarity a b ≤ 1 ∧
    ((∀ c ∈ a, isAlnumLower (Char.toLower c) = false) → nameSimilarity a b = 0) := by
  have hsymm : nameSimilarity a b = nameSimilarity b a := by
    rw [nameSimilarity_eq_finset, nameSimilarity_eq_finset, Finset.inter_comm,
      max_comm ((clean a).toFinset.card)]
  have hd1 : (1 : ℕ) ≤ max (max (clean a).toFinset.card (clean b).toFinset.card) 1 :=
    le_max_right _ 1
  have hd0 : (0 : ℚ) <
      ((max (max (clean a).toFinset.card (clean b).toFinset.card) 1 : ℕ) : ℚ) := by
    exact_mod_cast lt_of_lt_of_le zero_lt_one hd1
  have hnum : ((clean a).toFinset ∩ (clean b).toFinset).card ≤
      max (max (clean a).toFinset.card (clean b).toFinset.card) 1 := by
    calc ((clean a).toFinset ∩ (clean b).toFinset).card
        ≤ (clean a).toFinset.card := Finset.card_le_card Finset.inter_subset_left
      _ ≤ max (clean a).toFinset.card (clean b).toFinset.card := le_max_left _ _
      _ ≤ _ := le_max_left _ _
  refine ⟨hsymm, ?_, ?_, ?_⟩
  · rw [nameSimilarity_eq_finset]
    exact div_nonneg (by positivity) hd0.le
  · rw [nameSimilarity_eq_finset]
    exact (div_le_one hd0).mpr (by exact_mod_cast hnum)
  · intro h
    rw [nameSimilarity_eq_finset, clean_eq_nil_of_no_alnum a h]
    simp

/-- Witness for C9 at a concrete input with no alphanumeric characters. -/
theorem nameSimilarity_symm_bounds_witness :
    nameSimilarity "!!!".toList "abc".toList = 0 :=
  (nameSimilarity_symm_bounds "!!!".toList "abc".toList).2.2.2 (by decide)

theorem nameSimilarity_eq_zero_of_no_shared (a b : Str)
    (h : ((clean a).dedup.filter (fun w => decide (w ∈ (clean b).dedup))).length = 0) :
    nameSimilarity a b = 0 := by
  unfold nameSimilarity
  rw [h, Nat.cast_zero, zero_div]

theorem matchStepSub_fixed (t : Torrent) (s : Subtitle) (st : MatchState)
    (h0 : st.score = 0) (hq : nameSimilarity t.name (subName s) = 0) :
    matchStepSub t st s = st := by
  simp [matchStepSub, hq, h0]

theorem foldl_matchStep_fixed (t : Torrent) (subs : List Subtitle) (st : MatchState)
    (h0 : st.score = 0)
    (hq : ∀ s ∈ subs, nameSimilarity t.name (subName s) = 0) :
    subs.foldl (matchStepSub t) st = st := by
  induction subs with
  | nil => rfl
  | cons s rest ih =>
    rw [List.foldl_cons, matchStepSub_fixed t s st h0 (hq s (by simp))]
    exact ih (fun s2 hs2 => hq s2 (by simp [hs2]))

theorem foldl_matchStep_first (t : Torrent) (s0 : Subtitle) (rest : List Subtitle)
    (hname : truthyStr t.name = true) (hfile : truthyOptStr s0.fileName = true)
    (hq0 : nameSimilarity t.name (subName s0) = 0)
    (hq : ∀ s ∈ rest, nameSimilarity t.name (subName s) = 0)
    (st : MatchState) (hlt : st.score < 0) :
    (s0 :: rest).foldl (matchStepSub t) st = ⟨t, s0, 0⟩ := by
  rw [List.foldl_cons]
  have hstep : matchStepSub t st s0 = ⟨t, s0, 0⟩ := by
    rw [matchStepSub, hq0, hname, hfile]
    simp [hlt]
  rw [hstep]
  exact foldl_matchStep_fixed t rest _ rfl hq

theorem foldl_outer_fixed (tors2 : List Torrent) (subs : List Subtitle) (st : MatchState)
    (h0 : st.score = 0)
    (hq : ∀ t ∈ tors2, ∀ s ∈ subs, nameSimilarity t.name (subName s) = 0) :
    tors2.foldl (fun st2 t => subs.foldl (matchStepSub t) st2) st = st := by
  induction tors2 with
  | nil => rfl
  | cons t rest ih =>
    rw [List.foldl_cons, foldl_matchStep_fixed t subs st h0 (hq t (by simp))]
    exact ih (fun t2 ht2 s hs2 => hq t2 (by simp [ht2]) s hs2)

/-- C2: on non-empty lists where every release has a (truthy) name, every
subtitle has a (truthy) file name, and every pairwise word similarity is
`0`, the matcher returns the pair `(releases[0], subtitles[0])` with score
`0`, not an error. -/
theorem matcher_zero_overlap (tors : List Torrent) (subs : List Subtitle)
    (ht : tors ≠ []) (hs : subs ≠ [])
    (hname : ∀ t ∈ tors, truthyStr t.name = true)
    (hfile : ∀ s ∈ subs, truthyOptStr s.fileName = true)
    (hzero : ∀ t ∈ tors, ∀ s ∈ subs, nameSimilarity t.name (subName s) = 0) :
    matchBest tors subs = some ⟨tors.head ht, subs.head hs, 0⟩ := by
  obtain ⟨t0, tr, rfl⟩ := List.exists_cons_of_ne_nil ht
  obtain ⟨s0, sr, rfl⟩ := List.exists_cons_of_ne_nil hs
  show some _ = _
  simp only [List.head_cons]
  congr 1
  rw [List.foldl_cons]
  have h1 : (s0 :: sr).foldl (matchStepSub t0) ⟨t0, s0, -1⟩ = ⟨t0, s0, 0⟩ :=
    foldl_matchStep_first t0 s0 sr (hname t0 (by simp)) (hfile s0 (by simp))
      (hzero t0 (by simp) s0 (by simp))
      (fun s hs2 => hzero t0 (by simp) s (by simp [hs2]))
      ⟨t0, s0, -1⟩ (by norm_num)
  rw [h1]
  exact foldl_outer_fixed tr (s0 :: sr) _ rfl
    (fun t2 ht2 s hs2 => hzero t2 (by simp [ht2]) s hs2)

/-- Witness for C2: a single torrent named `"abc"` and a single subtitle
file named `"xyz"` share no token, and the matcher returns that first
pair with score `0`. -/
theorem matcher_zero_overlap_witness :
    matchBest [wTor] [wSub] = some ⟨wTor, wSub, 0⟩ :=
  matcher_zero_overlap [wTor] [wSub] (by simp) (by simp)
    (by intro t ht; simp only [List.mem_singleton] at ht; subst ht; decide)
    (by intro s hs; simp only [List.mem_singleton] at hs; subst hs; decide)
    (by
      intro t ht s hs
      simp only [List.mem_singleton] at ht hs
      subst ht; subst hs
      exact nameSimilarity_eq_zero_of_no_shared _ _ (by decide))

theorem matchStepSub_inv (t : Torrent) (s : Subtitle) (st init : MatchState)
    (h : st = init ∨ truthyOptStr st.subtitle.fileName = true) :
    matchStepSub t st s = init ∨
      truthyOptStr (matchStepSub t st s).subtitle.fileName = true := by
  unfold matchStepSub
  by_cases hc : (!truthyStr t.name || !truthyOptStr s.fileName) = true
  · rw [if_pos hc]; exact h
  · simp only [Bool.or_eq_true, not_or, Bool.not_eq_true, Bool.not_eq_false'] at hc
    rw [if_neg (by simp [hc.1, hc.2])]
    by_cases hlt : st.score < nameSimilarity t.name (subName s)
    · rw [if_pos hlt]; exact Or.inr hc.2
    · rw [if_neg hlt]; exact h

theorem foldl_matchStep_inv (t : Torrent) (subs : List Subtitle) (st init : MatchState)
    (h : st = init ∨ truthyOptStr st.subtitle.fileName = true) :
    subs.foldl (matchStepSub t) st = init ∨
      truthyOptStr (subs.foldl (matchStepSub t) st).subtitle.fileName = true := by
  induction subs generalizing st with
  | nil => exact h
  | cons s rest ih => rw [List.foldl_cons]; exact ih _ (matchStepSub_inv t s st init h)

theorem foldl_outer_inv (tors2 : List Torrent) (subs : List Subtitle) (st init : MatchState)
    (h : st = init ∨ truthyOptStr st.subtitle.fileName = true) :
    tors2.foldl (fun st2 t => subs.foldl (matchStepSub t) st2) st = init ∨
      truthyOptStr ((tors2.foldl (fun st2 t => subs.foldl (matchStepSub t) st2) st).subtitle.fileName) = true := by
  induction tors2 generalizing st with
  | nil => exact h
  | cons t rest ih => rw [List.foldl_cons]; exact ih _ (foldl_matchStep_inv t subs st init h)

/-- C7 counterexample: with one torrent (which has a name) and one
subtitle lacking a `fileName`, both lists non-empty, the matcher returns
a pair containing that name-less subtitle (the untouched default pair
with score `-1`) — so a name-less subtitle is not always excluded from
the returned pair. -/
theorem matcher_returns_nameless_subtitle :
    matchBest [cexTorrent] [cexNoNameSub] =
      some ⟨cexTorrent, cexNoNameSub, -1⟩ ∧ cexNoNameSub.fileName = none :=
  ⟨rfl, rfl⟩

/-- C7 (amended): a subtitle lacking a (truthy) `fileName` is never
scored and never causes an error on non-empty inputs; it can appear in
the matcher's result only as the untouched default pair
`(releases[0], subtitles[0])` with score `-1`. -/
theorem matcher_skips_nameless (tors : List Torrent) (subs : List Subtitle)
    (ht : tors ≠ []) (hs : subs ≠ []) :
    ∃ st, matchBest tors subs = some st ∧
      (truthyOptStr st.subtitle.fileName = false →
        st.video = tors.head ht ∧ st.subtitle = subs.head hs ∧ st.score = -1) := by
  obtain ⟨t0, tr, rfl⟩ := List.exists_cons_of_ne_nil ht
  obtain ⟨s0, sr, rfl⟩ := List.exists_cons_of_ne_nil hs
  refine ⟨_, rfl, ?_⟩
  intro hfalsy
  have hinv := foldl_outer_inv (t0 :: tr) (s0 :: sr) ⟨t0, s0, -1⟩ ⟨t0, s0, -1⟩ (Or.inl rfl)
  rcases hinv with heq | htr
  · rw [heq]
    exact ⟨rfl, rfl, rfl⟩
  · rw [hfalsy] at htr
    exact absurd htr (by simp)

/-- Witness for C7 (amended) on concrete singleton lists. -/
theorem matcher_skips_nameless_witness :
    ∃ st, matchBest [cexTorrent] [wSub2] = some st ∧
      (truthyOptStr st.subtitle.fileName = false →
        st.video = [cexTorrent].head (by simp) ∧
        st.subtitle = [wSub2].head (by simp) ∧ st.score = -1) :=
  matcher_skips_nameless [cexTorrent] [wSub2] (by simp) (by simp)

/-- C8: given an empty releases list or an empty subtitles list, the
matcher fails (the JS code dereferences `undefined`) instead of
returning a matched pair. -/
theorem matcher_empty_input (tors : List Torrent) (subs : List Subtitle)
    (h : tors = [] ∨ subs = []) : matchBest tors subs = none := by
  rcases h with rfl | rfl
  · rfl
  · cases tors with
    | nil => rfl
    | cons t tr => rfl

/-- Witness for C8 at empty input. -/
theorem matcher_empty_input_witness :
    matchBest ([] : List Torrent) ([] : List Subtitle) = none :=
  matcher_empty_input [] [] (Or.inl rfl)

/-- C3 counterexample: the claim quantifies over any pair of names where
the first contains "1080p" and the second contains "720p"; if the second
name *also* contains "1080p", both land in tier 3 and the seeder
tie-break reverses the order: with seeders 0 and 999 the first score is
3000 and the second 3000.999. -/
theorem score_1080_720_counterexample :
    containsCI cexT1080.name "1080p".toList = true ∧
    containsCI cexBoth.name "720p".toList = true ∧
    seedNumber cexT1080 = some 0 ∧ seedNumber cexBoth = some 999 ∧
    scoreTorrent cexT1080 = some 3000 ∧
    scoreTorrent cexBoth = some (3000999 / 1000) ∧
    ¬ ((3000999 : ℚ) / 1000 < 3000) := by
  refine ⟨by decide, by decide, by decide, by decide, ?_, ?_, by norm_num⟩
  · rw [scoreTorrent, show seedNumber cexT1080 = some 0 from by decide,
      Option.map_some', show qualityTier cexT1080.name = 3 from by decide]
    norm_num
  · rw [scoreTorrent, show seedNumber cexBoth = some 999 from by decide,
      Option.map_some', show qualityTier cexBoth.name = 3 from by decide]
    norm_num

/-- C3 (amended): whenever the first name contains "1080p", the second
contains "720p" but *not* "1080p", and both seeder counts parse to
integers between 0 and 999, the first quality-tier score is strictly
greater than the second. -/
theorem score_1080_beats_720 (t1 t2 : Torrent) (v1 v2 : Int)
    (h1080 : containsCI t1.name "1080p".toList = true)
    (h720 : containsCI t2.name "720p".toList = true)
    (hnot : containsCI t2.name "1080p".toList = false)
    (hs1 : seedNumber t1 = some v1) (hs2 : seedNumber t2 = some v2)
    (hv1l : 0 ≤ v1) (hv1u : v1 ≤ 999) (hv2l : 0 ≤ v2) (hv2u : v2 ≤ 999) :
    ∃ q1 q2, scoreTorrent t1 = some q1 ∧ scoreTorrent t2 = some q2 ∧ q2 < q1 := by
  refine ⟨_, _, by rw [scoreTorrent, hs1, Option.map_some'],
    by rw [scoreTorrent, hs2, Option.map_some'], ?_⟩
  have hq1 : qualityTier t1.name = 3 := by rw [qualityTier, if_pos h1080]
  have hq2 : qualityTier t2.name = 2 := by
    rw [qualityTier, if_neg (by rw [hnot]; simp), if_pos h720]
  rw [hq1, hq2]
  have hv1Q : (0 : ℚ) ≤ (v1 : ℚ) := by exact_mod_cast hv1l
  have hv2Q : (v2 : ℚ) ≤ 999 := by exact_mod_cast hv2u
  have hlo : (0 : ℚ) ≤ (v1 : ℚ) / 1000 := by positivity
  have hhi : (v2 : ℚ) / 1000 ≤ 999 / 1000 := by gcongr
  push_cast
  linarith

/-- Witness for C3 (amended): a 1080p name with 30 seeders beats a
720p-only name with 500 seeders. -/
theorem score_1080_beats_720_witness :
    ∃ q1 q2, scoreTorrent wT1080 = some q1 ∧ scoreTorrent wT720 = some q2 ∧
      q2 < q1 :=
  score_1080_beats_720 wT1080 wT720 30 500 (by decide) (by decide) (by decide)
    (by decide) (by decide) (by decide) (by decide) (by decide) (by decide)

theorem sorted_head_ge (l : List Scored) (hl : List.Sorted scoreGE l) :
    ∀ hne : l ≠ [], ∀ x ∈ l, x.score ≤ (l.head hne).score := by
  intro hne x hx
  cases l with
  | nil => exact absurd rfl hne
  | cons a t =>
    rcases List.mem_cons.mp hx with rfl | hx2
    · exact le_refl _
    · exact List.rel_of_sorted_cons hl x hx2

/-- C4: whenever `findMagnets` succeeds, the returned list is sorted in
descending order of computed score, and in particular the first
element's score is at least the score of every element of the list. -/
theorem findMagnets_sorted (results : List Torrent) (minSeeds : Int)
    (out : List Scored) (h : findMagnets results minSeeds = .ok out) :
    List.Sorted scoreGE out ∧
      ∀ hne : out ≠ [], ∀ x ∈ out, x.score ≤ (out.head hne).score := by
  unfold findMagnets at h
  by_cases h1 : results.isEmpty
  · rw [if_pos h1] at h; cases h
  · rw [if_neg h1] at h
    by_cases h2 : (results.filter (passesSeedFilter minSeeds)).isEmpty
    · rw [if_pos h2] at h; cases h
    · rw [if_neg h2] at h
      have h3 := Except.ok.inj h
      subst h3
      exact ⟨List.sorted_insertionSort scoreGE _,
        sorted_head_ge _ (List.sorted_insertionSort scoreGE _)⟩

/-- Witness for C4 on a concrete successful run of `findMagnets`. -/
theorem findMagnets_sorted_witness :
    List.Sorted scoreGE [⟨wT480, (scoreTorrent wT480).getD 0⟩] :=
  (findMagnets_sorted [wT480] 20 [⟨wT480, (scoreTorrent wT480).getD 0⟩] rfl).1

/-- C5: on a non-empty result list in which every candidate's seeder
count (absent/unparseable read as 0) is below the threshold,
`findMagnets` fails with the `notEnoughSeeders` error
(`'No torrents found with enough seeders.'`), which is distinct from the
`notFound` error it raises on an empty result list. -/
theorem findMagnets_not_enough_seeders (results : List Torrent) (minSeeds : Int)
    (hne : results ≠ [])
    (hlow : ∀ t ∈ results, seedCount t < minSeeds) :
    findMagnets results minSeeds = .error .notEnoughSeeders ∧
      findMagnets [] minSeeds = .error .notFound ∧
      FindError.notEnoughSeeders ≠ FindError.notFound := by
  refine ⟨?_, rfl, by decide⟩
  unfold findMagnets
  rw [if_neg (by simp [hne]), if_pos ?hfilter]
  case hfilter =>
    rw [List.isEmpty_iff, List.filter_eq_nil_iff]
    intro t ht
    have hl := hlow t ht
    rw [seedCount] at hl
    unfold passesSeedFilter
    cases hp : parsedSeeders t with
    | none => simp
    | some n =>
      rw [hp, Option.getD_some] at hl
      simp only [Bool.and_eq_true, decide_eq_true_eq]
      rintro ⟨-, hge⟩
      omega

/-- Witness for C5: one candidate with 5 seeders under threshold 20. -/
theorem findMagnets_not_enough_seeders_witness :
    findMagnets [wLowSeed] 20 = .error .notEnoughSeeders ∧
      findMagnets [] 20 = .error .notFound ∧
      FindError.notEnoughSeeders ≠ FindError.notFound :=
  findMagnets_not_enough_seeders [wLowSeed] 20 (by simp)
    (by intro t ht; simp only [List.mem_singleton] at ht; subst ht; decide)

/-- C6 counterexample: with threshold 0, a candidate with an absent
seeders field is dropped by the code's filter (and `findMagnets` raises
the threshold error), although its seeder count read as 0 satisfies
`0 ≥ 0`, so the claimed filter retains it. -/
theorem seedFilter_counterexample :
    passesSeedFilter 0 cexAbsentSeeders = false ∧
    specRetained 0 cexAbsentSeeders = true ∧
    findMagnets [cexAbsentSeeders] 0 = .error .notEnoughSeeders :=
  ⟨rfl, rfl, rfl⟩

/-- C6 (amended): the ranker's filter keeps exactly the candidates whose
seeders field is truthy (present and neither `0` nor `""`), parseable,
and whose parsed value is at least the threshold; candidates with
absent, zero or unparseable seeders are always dropped, even when the
threshold is 0. -/
theorem seedFilter_characterization (minSeeds : Int) (t : Torrent) :
    passesSeedFilter minSeeds t = true ↔
      (seedersTruthy t = true ∧ (parsedSeeders t).isSome = true ∧
        minSeeds ≤ seedCount t) := by
  unfold passesSeedFilter
  cases hp : parsedSeeders t with
  | none => simp [hp]
  | some n => simp [hp, seedCount]

/-- Witness for C6 (amended) at a retained concrete candidate. -/
theorem seedFilter_characterization_witness :
    passesSeedFilter 20 wT480 = true :=
  (seedFilter_characterization 20 wT480).mpr ⟨by decide, by decide, by decide⟩

/-- C10: `formatDuration` renders optional day, hour and minute
components and a mandatory seconds component that decode back to exactly
`max(0, round(s))` seconds, with hours < 24, minutes < 60 and
seconds < 60; a negative input therefore yields the string `"0s"`. -/
theorem formatDuration_spec (q : ℚ) :
    ∃ d h m s : ℕ,
      formatDuration q = renderDuration d h m s ∧
      d * 86400 + h * 3600 + m * 60 + s = (max 0 (jsRound q)).toNat ∧
      h < 24 ∧ m < 60 ∧ s < 60 ∧
      (q < 0 → formatDuration q = ['0', 's']) := by
  refine ⟨_, _, _, _, rfl, ?_, ?_, ?_, ?_, ?_⟩
  · omega
  · omega
  · omega
  · omega
  · intro hq
    have h1 : jsRound q < 1 := by
      rw [jsRound]
      exact Int.floor_lt.mpr (by push_cast; linarith)
    have hmax : (max 0 (jsRound q)).toNat = 0 := by omega
    unfold formatDuration
    rw [hmax]
    rfl

/-- Witness for C10: `formatDuration (-3)` yields `"0s"`. -/
theorem formatDuration_spec_witness :
    formatDuration (-3 : ℚ) = ['0', 's'] := by
  obtain ⟨d, h, m, s, -, -, -, -, -, hneg⟩ := formatDuration_spec (-3 : ℚ)
  exact hneg (by norm_num)
